import Mathlib

/-!
Shallow embedding of the position-risk auto-exit engine in
`services/management_service.py` (openalgo).

Modelling conventions:
* Python `float` values (prices, quantities, P&L) are modelled as `ℚ`;
  no division occurs in the modelled code, so exact rationals are faithful.
* Python dicts are modelled as association lists with Python-dict update
  semantics (`assocInsert` replaces in place, otherwise appends; lookup
  finds the unique binding).
* A dict value that is present but fails `float(...)` conversion is
  modelled as `some none`; an absent key as `none`.
* Exceptions raised by `place_order` are modelled by a gateway oracle
  `gw : OrderPayload → Bool` (`true` = the call returns without raising,
  which includes broker-rejected submissions; `false` = the call raises).
  Database reads/writes are modelled as total operations.
-/

namespace ManagementService

/-- Python-dict lookup on an association list: first binding wins
(keys are unique by construction of `assocInsert`). -/
def assocGet {α : Type} (d : List (String × α)) (k : String) : Option α :=
  match d with
  | [] => none
  | (k', v) :: rest => if k' = k then some v else assocGet rest k

/-- Python-dict assignment `d[k] = v`: replaces the binding in place if
the key is present, otherwise appends (insertion order preserved). -/
def assocInsert {α : Type} (d : List (String × α)) (k : String) (v : α) :
    List (String × α) :=
  match d with
  | [] => [(k, v)]
  | (k', v') :: rest =>
    if k' = k then (k', v) :: rest else (k', v') :: assocInsert rest k v

/-- Quote record for one symbol: field name (`"ltp"`, `"open"`, ...) to value. -/
abbrev QuoteRec := List (String × ℚ)

/-- The module-level `ohlcv_cache`: symbol to quote record. -/
abbrev Cache := List (String × QuoteRec)

/-- Reads `cache[sym][k]`, `none` when either level is absent. -/
def quote_get (cache : Cache) (sym k : String) : Option ℚ :=
  match assocGet cache sym with
  | none => none
  | some q => assocGet q k

/-- Writes `cache[sym][k] = v` (the symbol entry exists on every call site,
but the definition is total like the Python expression). -/
def cache_set (cache : Cache) (sym k : String) (v : ℚ) : Cache :=
  assocInsert cache sym (assocInsert ((assocGet cache sym).getD []) k v)

/-- Line `if symbol not in ohlcv_cache: ohlcv_cache[symbol] = {}`. -/
def cache_init (cache : Cache) (sym : String) : Cache :=
  match assocGet cache sym with
  | some _ => cache
  | none => assocInsert cache sym []

/-- A broker position dict, as consumed by the evaluator.  `positions_map`
construction accesses `p['symbol']` and `p['product']` directly, so both
keys are always present; the quantity-like keys, `netavgprc` and `pnl`
may be absent (`none`) or present but non-numeric (`some none`). -/
structure Position where
  symbol : String
  product : String
  qtyFields : List (String × Option ℚ)
  netavgprc : Option (Option ℚ)
  pnl : Option (Option ℚ)
deriving DecidableEq

/-- Key list probed by `get_net_qty`, in source order. -/
def qtyKeys : List String := ["quantity", "netqty", "net_qty", "qty"]

/-- Helper loop of `get_net_qty`: first present-and-numeric key wins;
absent or non-convertible keys fall through to the next candidate. -/
def net_qty_from (fields : List (String × Option ℚ)) : List String → ℚ
  | [] => 0
  | k :: rest =>
    match assocGet fields k with
    | some (some v) => v
    | _ => net_qty_from fields rest

/-- Source `get_net_qty(p)`. -/
def get_net_qty (p : Position) : ℚ := net_qty_from p.qtyFields qtyKeys

/-- Source `calculate_pnl(pos)`: defaults to `float(pos.get('pnl', 0))`
(0 when absent or non-numeric); recomputes from the cached `ltp` when the
cache has one for the position's symbol and `netavgprc` is numeric. -/
def calculate_pnl (cache : Cache) (pos : Position) : ℚ :=
  let pnl0 : ℚ :=
    match pos.pnl with
    | some (some v) => v
    | _ => 0
  match quote_get cache pos.symbol "ltp" with
  | none => pnl0
  | some ltp =>
    match pos.netavgprc with
    | some (some avg) =>
      let net_qty := get_net_qty pos
      if 0 < net_qty then (ltp - avg) * net_qty
      else if net_qty < 0 then (avg - ltp) * |net_qty|
      else pnl0
    | _ => pnl0

/-- Decoded feed payload (`json.loads(message)`): optional `symbol`
entry plus the numeric candidate fields. -/
structure FeedData where
  symbol : Option String
  fields : List (String × Option ℚ)
deriving DecidableEq

/-- Python `topic_str.split('_')` at the character level. -/
def splitChars (sep : Char) : List Char → List Char → List String
  | [], acc => [String.mk acc.reverse]
  | c :: cs, acc =>
    if c = sep then String.mk acc.reverse :: splitChars sep cs []
    else splitChars sep cs (c :: acc)

/-- Source `topic_str.split('_')`. -/
def pySplit (s : String) : List String := splitChars '_' s.data []

/-- Python truthiness-based `or` on optional strings: `None` and the
empty string are falsy and fall through to the right operand. -/
def pyOr (a b : Option String) : Option String :=
  match a with
  | none => b
  | some s => if s = "" then b else some s

/-- Expression `parts[-2] if len(parts) >= 3 else None`. -/
def topic_symbol (topic : String) : Option String :=
  let parts := pySplit topic
  if 3 ≤ parts.length then parts.get? (parts.length - 2) else none

/-- Line `symbol = data.get('symbol') or (parts[-2] if len(parts) >= 3 else None)`. -/
def resolve_symbol (data : FeedData) (topic : String) : Option String :=
  pyOr data.symbol (topic_symbol topic)

/-- Field keys written by `process_market_data`, in source order. -/
def fieldOrder : List String := ["ltp", "open", "high", "low", "close", "volume"]

/-- Sequential field merge of `process_market_data`: each present field is
converted with `float(...)` and stored; a conversion failure raises, the
exception is caught by the enclosing handler, and the writes already made
are kept (the remaining keys are not processed). -/
def merge_go (sym : String) (fields : List (String × Option ℚ)) :
    List String → Cache → Cache
  | [], cache => cache
  | k :: rest, cache =>
    match assocGet fields k with
    | some (some v) => merge_go sym fields rest (cache_set cache sym k v)
    | some none => cache
    | none => merge_go sym fields rest cache

/-- Source `process_market_data(topic, message)`.  `msg = none` models a
payload that fails decoding (`json.loads` raises; caught and dropped).
An unresolvable or empty symbol returns with the cache untouched. -/
def process_market_data (topic : String) (msg : Option FeedData)
    (cache : Cache) : Cache :=
  match msg with
  | none => cache
  | some data =>
    match resolve_symbol data topic with
    | none => cache
    | some sym =>
      if sym = "" then cache
      else merge_go sym data.fields fieldOrder (cache_init cache sym)

/-- One pass of the feed-drain section of `management_loop` (poller lines):
at most one pending message is received; it is processed only while the
market is open.  Rule checking never writes the cache, so the quote cache
after a full iteration is the value returned here. -/
def loop_iteration (market_open : Bool)
    (queue : List (String × Option FeedData)) (cache : Cache) :
    List (String × Option FeedData) × Cache :=
  match queue with
  | [] => ([], cache)
  | (topic, msg) :: rest =>
    (rest, if market_open then process_market_data topic msg cache else cache)

/-- A `ManagementRule` row as the evaluator reads it.  `target_profit` and
`max_loss` are optional numeric columns; Python truthiness makes the value
0 behave like an unset column. -/
structure Rule where
  id : Nat
  user_id : String
  symbol : String
  exchange : String
  product : String
  is_group_rule : Bool
  exit_type : String
  target_profit : Option ℚ
  max_loss : Option ℚ
  is_active : Bool
deriving DecidableEq

/-- Store query `session.query(ManagementRule).filter_by(is_active=True)`. -/
def load_active_rules (store : List Rule) : List Rule :=
  store.filter (fun r => r.is_active)

/-- Deactivation step of `execute_exit`: query the row by id (`.first()`);
when present set `is_active = False` and commit, otherwise leave the store
unchanged. -/
def deactivate_rule (store : List Rule) (rid : Nat) : List Rule :=
  match store.find? (fun r => r.id == rid) with
  | none => store
  | some _ =>
    store.map (fun r => if r.id = rid then { r with is_active := false } else r)

/-- Python `int(q)`: truncation toward zero. -/
def pyInt (q : ℚ) : ℤ := (Rat.num q).tdiv (Rat.den q : ℤ)

/-- The order dict built by `execute_exit`.  The source serialises
`quantity` with `str(qty)`; the integer value is kept here. -/
structure OrderPayload where
  apikey : String
  symbol : String
  exchange : String
  product : String
  quantity : ℤ
  disclosed_quantity : String
  price : String
  trigger_price : String
  pricetype : String
  action : String
  tag : String
deriving DecidableEq

/-- Payload construction in `execute_exit`: quantity `abs(int(net_qty))`,
side `'SELL' if net_qty > 0 else 'BUY'`, and the instrument fields taken
from the rule (`rule.symbol`, `rule.exchange`, `rule.product`). -/
def build_exit_payload (rule : Rule) (position : Position) (api_key : String) :
    OrderPayload :=
  let net_qty := get_net_qty position
  { apikey := api_key
    symbol := rule.symbol
    exchange := rule.exchange
    product := rule.product
    quantity := |pyInt net_qty|
    disclosed_quantity := "0"
    price := "0"
    trigger_price := "0"
    pricetype := "MARKET"
    action := if 0 < net_qty then "SELL" else "BUY"
    tag := "MANAGEMENT_EXIT" }

/-- Trigger reasons, mirroring the strings logged and passed to
`execute_exit` (`Group ...` reasons interpolate the aggregate P&L). -/
inductive ExitReason where
  | targetProfitTriggered
  | maxLossTriggered
  | groupTargetProfit (pnl : ℚ)
  | groupMaxLoss (pnl : ℚ)
deriving DecidableEq

/-- Reason string passed to `execute_exit` (numeric interpolation rendered
through `ℚ`). -/
def ExitReason.text : ExitReason → String
  | targetProfitTriggered => "Target Profit Triggered"
  | maxLossTriggered => "Max Loss Triggered"
  | groupTargetProfit pnl => "Group Target Profit: " ++ toString pnl
  | groupMaxLoss pnl => "Group Max Loss: " ++ toString pnl

/-- Mutable state touched by `execute_exit`: the rule table, the list of
payloads passed to `place_order` (in call order), and the log lines. -/
structure World where
  store : List Rule
  placed : List OrderPayload
  logs : List String
deriving DecidableEq

/-- Source `execute_exit(rule, position, api_key, reason)`.  The whole body
runs inside `try/except Exception`, so the function itself never raises:
when `place_order` raises (`gw payload = false`) the deactivation step is
skipped and the effects so far are kept; when it returns (`gw payload =
true`, broker rejection included) the rule row is deactivated through a
fresh session. -/
def execute_exit (gw : OrderPayload → Bool) (rule : Rule) (position : Position)
    (api_key : String) (reason : ExitReason) (w : World) : World :=
  let payload := build_exit_payload rule position api_key
  let w1 : World :=
    { store := w.store
      placed := w.placed ++ [payload]
      logs := w.logs ++
        ["Executing Management Exit for " ++ rule.symbol ++ ": " ++ reason.text] }
  if gw payload then
    { store := deactivate_rule w1.store rule.id
      placed := w1.placed
      logs := w1.logs ++
        ["Rule " ++ toString rule.id ++ " deactivated after exit execution"] }
  else w1

/-- Condition `rule.target_profit and pnl >= rule.target_profit`
(truthiness: an unset or zero column never triggers). -/
def tpCond (tp : Option ℚ) (pnl : ℚ) : Bool :=
  match tp with
  | none => false
  | some v => if v = 0 then false else decide (v ≤ pnl)

/-- Group condition `rule.max_loss and group_pnl <= -abs(rule.max_loss)`. -/
def mlCondGroup (ml : Option ℚ) (pnl : ℚ) : Bool :=
  match ml with
  | none => false
  | some v => if v = 0 then false else decide (pnl ≤ -|v|)

/-- Individual guard `rule.exit_type in ['TOTAL_LOSS', 'BOTH'] and rule.max_loss`. -/
def mlGuardInd (exit_type : String) (ml : Option ℚ) : Bool :=
  (decide (exit_type = "TOTAL_LOSS") || decide (exit_type = "BOTH")) &&
    (match ml with
     | none => false
     | some v => decide (v ≠ 0))

/-- Individual inner test `pnl < 0 and abs(pnl) >= rule.max_loss`. -/
def mlCondInd (ml : Option ℚ) (pnl : ℚ) : Bool :=
  match ml with
  | none => false
  | some v => decide (pnl < 0) && decide (v ≤ |pnl|)

/-- Python `str.startswith` on unicode strings. -/
def strStarts (s pre : String) : Bool := pre.data.isPrefixOf s.data

/-- Key `f"{symbol}_{product}"` used for `positions_map` and rule lookup. -/
def posKey (symbol product : String) : String := symbol ++ "_" ++ product

/-- Dict comprehension `{f"{p['symbol']}_{p['product']}": p for p in data}`. -/
def build_positions_map (ps : List Position) : List (String × Position) :=
  ps.foldl (fun m p => assocInsert m (posKey p.symbol p.product) p) []

/-- Group-rule matching scan: symbol prefix match, equal product, and
non-zero net quantity (positions failing any test are not collected). -/
def group_matching (rule : Rule) (pm : List (String × Position)) :
    List Position :=
  (pm.filter (fun kv =>
    strStarts kv.2.symbol rule.symbol && decide (kv.2.product = rule.product) &&
      decide (get_net_qty kv.2 ≠ 0))).map Prod.snd

/-- Aggregate `group_pnl` accumulated over the matching positions. -/
def group_pnl (cache : Cache) (rule : Rule) (pm : List (String × Position)) : ℚ :=
  ((group_matching rule pm).map (calculate_pnl cache)).sum

/-- Pure trigger computation of one iteration of the per-rule loop in
`check_rules`: the list of `(position, reason)` pairs for which
`execute_exit` is invoked, in call order.  The candle-close branch at the
end of the loop body is a deliberate no-op in the source and contributes
nothing. -/
def rule_triggers (cache : Cache) (rule : Rule)
    (pm : List (String × Position)) : List (Position × ExitReason) :=
  if rule.is_group_rule then
    let matching := group_matching rule pm
    if matching.isEmpty then []
    else
      let g := group_pnl cache rule pm
      if tpCond rule.target_profit g then
        matching.map (fun p => (p, ExitReason.groupTargetProfit g))
      else if mlCondGroup rule.max_loss g then
        matching.map (fun p => (p, ExitReason.groupMaxLoss g))
      else []
  else
    match assocGet pm (posKey rule.symbol rule.product) with
    | none => []
    | some pos =>
      if get_net_qty pos = 0 then []
      else
        let pnl := calculate_pnl cache pos
        if tpCond rule.target_profit pnl then
          [(pos, ExitReason.targetProfitTriggered)]
        else if mlGuardInd rule.exit_type rule.max_loss then
          if mlCondInd rule.max_loss pnl then
            [(pos, ExitReason.maxLossTriggered)]
          else []
        else []

/-- Effectful evaluation of one rule in `check_rules`: every computed
trigger is executed with `execute_exit` (which never raises), in order. -/
def check_rule (cache : Cache) (gw : OrderPayload → Bool) (api_key : String)
    (rule : Rule) (pm : List (String × Position)) (w : World) : World :=
  (rule_triggers cache rule pm).foldl
    (fun w pr => execute_exit gw rule pr.1 api_key pr.2 w) w

end ManagementService

namespace ManagementService

/-! General lemmas about the dict model. -/

theorem assocGet_insert_self {α : Type} (d : List (String × α)) (k : String) (v : α) :
    assocGet (assocInsert d k v) k = some v := by
  induction d with
  | nil => simp [assocInsert, assocGet]
  | cons h t ih =>
    obtain ⟨k', v'⟩ := h
    by_cases hk : k' = k
    · subst hk; simp [assocInsert, assocGet]
    · simp [assocInsert, assocGet, hk, ih]

theorem assocGet_insert_ne {α : Type} (d : List (String × α)) (k k' : String) (v : α)
    (h : k' ≠ k) : assocGet (assocInsert d k v) k' = assocGet d k' := by
  induction d with
  | nil => simp [assocInsert, assocGet, Ne.symm h]
  | cons hd t ih =>
    obtain ⟨a, b⟩ := hd
    by_cases ha : a = k
    · subst ha
      simp [assocInsert, assocGet, Ne.symm h]
    · simp only [assocInsert, if_neg ha]
      by_cases ha' : a = k'
      · simp [assocGet, ha']
      · simp [assocGet, ha', ih]

theorem quote_get_cache_set_self (cache : Cache) (sym k : String) (v : ℚ) :
    quote_get (cache_set cache sym k v) sym k = some v := by
  simp [quote_get, cache_set, assocGet_insert_self]

theorem quote_get_cache_set_ne_field (cache : Cache) (sym k k' : String) (v : ℚ)
    (h : k' ≠ k) :
    quote_get (cache_set cache sym k v) sym k' = quote_get cache sym k' := by
  simp only [quote_get, cache_set, assocGet_insert_self,
    assocGet_insert_ne _ _ _ _ h]
  cases hc : assocGet cache sym with
  | none => simp [assocGet]
  | some q => simp

theorem quote_get_cache_init (cache : Cache) (sym s k : String) :
    quote_get (cache_init cache sym) s k = quote_get cache s k := by
  unfold cache_init
  cases hc : assocGet cache sym with
  | some q => rfl
  | none =>
    by_cases hs : s = sym
    · subst hs
      simp [quote_get, assocGet_insert_self, hc, assocGet]
    · simp [quote_get, assocGet_insert_ne _ _ _ _ hs]

theorem merge_go_stop (sym : String) (fields : List (String × Option ℚ))
    (l1 l2 : List String) (k : String) (cache : Cache)
    (hgood : ∀ k' ∈ l1, assocGet fields k' ≠ some none)
    (hbad : assocGet fields k = some none) :
    merge_go sym fields (l1 ++ k :: l2) cache = merge_go sym fields l1 cache := by
  induction l1 generalizing cache with
  | nil => simp [merge_go, hbad]
  | cons a t ih =>
    have ha := hgood a (List.mem_cons_self a t)
    have hrest : ∀ k' ∈ t, assocGet fields k' ≠ some none :=
      fun x hx => hgood x (List.mem_cons_of_mem _ hx)
    cases hfa : assocGet fields a with
    | none => simp [merge_go, hfa, ih _ hrest]
    | some o =>
      cases o with
      | none => exact absurd hfa ha
      | some v => simp [merge_go, hfa, ih _ hrest]

theorem merge_go_not_written (sym : String) (fields : List (String × Option ℚ))
    (keys : List String) (cache : Cache) (k : String) (hk : k ∉ keys) :
    quote_get (merge_go sym fields keys cache) sym k = quote_get cache sym k := by
  induction keys generalizing cache with
  | nil => rfl
  | cons a t ih =>
    have hka : k ≠ a := fun h => hk (h ▸ List.mem_cons_self a t)
    have hkt : k ∉ t := fun h => hk (List.mem_cons_of_mem _ h)
    cases hfa : assocGet fields a with
    | none => simpa [merge_go, hfa] using ih _ hkt
    | some o =>
      cases o with
      | none => simp [merge_go, hfa]
      | some v =>
        have : merge_go sym fields (a :: t) cache =
            merge_go sym fields t (cache_set cache sym a v) := by
          simp [merge_go, hfa]
        rw [this, ih _ hkt, quote_get_cache_set_ne_field _ _ _ _ _ hka]

theorem merge_go_written (sym : String) (fields : List (String × Option ℚ))
    (keys : List String) (cache : Cache) (k : String) (v : ℚ)
    (hnd : keys.Nodup) (hmem : k ∈ keys)
    (hgood : ∀ k' ∈ keys, assocGet fields k' ≠ some none)
    (hv : assocGet fields k = some (some v)) :
    quote_get (merge_go sym fields keys cache) sym k = some v := by
  induction keys generalizing cache with
  | nil => cases hmem
  | cons a t ih =>
    have hrest : ∀ k' ∈ t, assocGet fields k' ≠ some none :=
      fun x hx => hgood x (List.mem_cons_of_mem _ hx)
    rcases List.mem_cons.mp hmem with h | h
    · subst h
      have hstep : merge_go sym fields (k :: t) cache =
          merge_go sym fields t (cache_set cache sym k v) := by
        simp [merge_go, hv]
      have hkt : k ∉ t := (List.nodup_cons.mp hnd).1
      rw [hstep, merge_go_not_written _ _ _ _ _ hkt, quote_get_cache_set_self]
    · cases hfa : assocGet fields a with
      | none => simp [merge_go, hfa, ih _ (List.nodup_cons.mp hnd).2 h hrest]
      | some o =>
        cases o with
        | none => exact absurd hfa (hgood a (List.mem_cons_self a t))
        | some w => simp [merge_go, hfa, ih _ (List.nodup_cons.mp hnd).2 h hrest]

end ManagementService

namespace ManagementService

/-! Lemmas about the exit executor and the rule store. -/

theorem execute_exit_placed (gw : OrderPayload → Bool) (rule : Rule)
    (pos : Position) (api : String) (reason : ExitReason) (w : World) :
    (execute_exit gw rule pos api reason w).placed =
      w.placed ++ [build_exit_payload rule pos api] := by
  unfold execute_exit
  by_cases h : gw (build_exit_payload rule pos api) = true <;> simp [h]

theorem deactivate_rule_id_inactive (store : List Rule) (rid : Nat) :
    ∀ r ∈ deactivate_rule store rid, r.id = rid → r.is_active = false := by
  intro r hr hid
  unfold deactivate_rule at hr
  cases hf : store.find? (fun r => r.id == rid) with
  | none =>
    rw [hf] at hr
    have := List.find?_eq_none.mp hf r hr
    simp [hid] at this
  | some x =>
    rw [hf] at hr
    obtain ⟨y, hy, hmap⟩ := List.mem_map.mp hr
    by_cases hyid : y.id = rid
    · rw [if_pos hyid] at hmap
      rw [← hmap]
    · rw [if_neg hyid] at hmap
      rw [← hmap] at hid
      exact absurd hid hyid

theorem deactivate_filter_id_inactive (store : List Rule) (rid : Nat) :
    ((deactivate_rule store rid).filter (fun r => r.id == rid)).all
      (fun r => !r.is_active) = true := by
  rw [List.all_eq_true]
  intro r hr
  have hm := List.mem_filter.mp hr
  have hid : r.id = rid := by simpa using hm.2
  simp [deactivate_rule_id_inactive store rid r hm.1 hid]

theorem deactivate_active_filter_nil (store : List Rule) (rid : Nat) :
    (load_active_rules (deactivate_rule store rid)).filter
      (fun r => r.id == rid) = [] := by
  rw [List.filter_eq_nil_iff]
  intro r hr hbeq
  have hact : r.is_active = true := by
    simpa using (List.mem_filter.mp (by simpa [load_active_rules] using hr)).2
  have hmem : r ∈ deactivate_rule store rid :=
    (List.mem_filter.mp (by simpa [load_active_rules] using hr)).1
  have hid : r.id = rid := by simpa using hbeq
  rw [deactivate_rule_id_inactive store rid r hmem hid] at hact
  cases hact

end ManagementService

namespace ManagementService

/-! Concrete objects used by witnesses and counterexamples. -/

/-- Individual rule from the spec example: target 500, max loss 300. -/
def ruleA : Rule :=
  { id := 7, user_id := "u", symbol := "INFY", exchange := "NSE", product := "MIS",
    is_group_rule := false, exit_type := "BOTH", target_profit := some 500,
    max_loss := some 300, is_active := true }

/-- Long position: 20 shares, average 100, broker P&L 600. -/
def posA : Position :=
  { symbol := "INFY", product := "MIS",
    qtyFields := [("quantity", some 20)], netavgprc := some (some 100),
    pnl := some (some 600) }

/-- Short position: net quantity -10 (under the `netqty` key), average 100. -/
def posS : Position :=
  { symbol := "INFY", product := "MIS",
    qtyFields := [("netqty", some (-10))], netavgprc := some (some 100),
    pnl := some (some 0) }

def pmA : List (String × Position) := build_positions_map [posA]

/-- Quote cache holding a cached ltp of 95 for INFY. -/
def cacheA : Cache := [("INFY", [("ltp", 95)])]

def wA : World := { store := [ruleA], placed := [], logs := [] }

/-- Group rule with prefix symbol NIFTY and target 500. -/
def ruleG : Rule :=
  { id := 1, user_id := "u", symbol := "NIFTY", exchange := "NSE", product := "MIS",
    is_group_rule := true, exit_type := "TOTAL_LOSS", target_profit := some 500,
    max_loss := some 300, is_active := true }

def posN1 : Position :=
  { symbol := "NIFTY24JANFUT", product := "MIS",
    qtyFields := [("quantity", some 50)], netavgprc := none, pnl := some (some 400) }

def posN2 : Position :=
  { symbol := "NIFTYFEBFUT", product := "MIS",
    qtyFields := [("quantity", some 30)], netavgprc := none, pnl := some (some 300) }

def pmG : List (String × Position) := build_positions_map [posN1, posN2]

def w0 : World := { store := [ruleG], placed := [], logs := [] }

/-- Group rule whose exit type is neither TOTAL_LOSS nor BOTH. -/
def rule4 : Rule :=
  { id := 4, user_id := "u", symbol := "NIFTY", exchange := "NSE", product := "MIS",
    is_group_rule := true, exit_type := "CANDLE_CLOSE", target_profit := none,
    max_loss := some 100, is_active := true }

def pos4 : Position :=
  { symbol := "NIFTY24X", product := "MIS",
    qtyFields := [("quantity", some 10)], netavgprc := none, pnl := some (some (-200)) }

def pm4 : List (String × Position) := build_positions_map [pos4]

/-- Individual rule whose exit type is neither TOTAL_LOSS nor BOTH. -/
def rule4i : Rule :=
  { id := 5, user_id := "u", symbol := "NIFTY24X", exchange := "NSE", product := "MIS",
    is_group_rule := false, exit_type := "CANDLE_CLOSE", target_profit := none,
    max_loss := some 100, is_active := true }

/-- Feed payload whose `open` entry fails float conversion while `ltp` parses. -/
def d6 : FeedData :=
  { symbol := some "RELIANCE", fields := [("ltp", some 5), ("open", none)] }

/-- Feed payload with a present-but-empty `symbol` entry. -/
def d8 : FeedData := { symbol := some "", fields := [("ltp", some 7)] }

/-- Feed payload with an explicit non-empty symbol. -/
def dTcs : FeedData := { symbol := some "TCS", fields := [("ltp", some 3)] }

/-- Feed payload without a `symbol` entry. -/
def dNoSym : FeedData := { symbol := none, fields := [("ltp", some 9)] }

end ManagementService

namespace ManagementService

/-- C2: `execute_exit` deactivates the rule exactly when `place_order`
returns without raising: on a non-raising call (broker rejection included)
the rule row is rewritten inactive through a fresh read-modify-write, so a
fresh load of active rules omits it; on a raising call the store is left
untouched and the rule stays active for a later cycle. -/
theorem C2_deactivation_iff_order_call_returns (gw : OrderPayload → Bool)
    (rule : Rule) (pos : Position) (api : String) (reason : ExitReason)
    (w : World) :
    (gw (build_exit_payload rule pos api) = true →
       ((execute_exit gw rule pos api reason w).store.filter
           (fun r => r.id == rule.id)).all (fun r => !r.is_active) = true ∧
       (load_active_rules (execute_exit gw rule pos api reason w).store).filter
           (fun r => r.id == rule.id) = []) ∧
    (gw (build_exit_payload rule pos api) = false →
       (execute_exit gw rule pos api reason w).store = w.store) := by
  constructor
  · intro h
    have hs : (execute_exit gw rule pos api reason w).store =
        deactivate_rule w.store rule.id := by
      simp [execute_exit, h]
    rw [hs]
    exact ⟨deactivate_filter_id_inactive _ _, deactivate_active_filter_nil _ _⟩
  · intro h
    simp [execute_exit, h]

/-- C2 witness: a gateway that returns normally deactivates `ruleA` and
a fresh active-rule load omits it; a gateway that raises leaves the store
unchanged. -/
theorem C2_deactivation_witness :
    (((execute_exit (fun _ => true) ruleA posA "KEY"
        ExitReason.targetProfitTriggered wA).store.filter
          (fun r => r.id == ruleA.id)).all (fun r => !r.is_active) = true) ∧
    ((load_active_rules (execute_exit (fun _ => true) ruleA posA "KEY"
        ExitReason.targetProfitTriggered wA).store).filter
          (fun r => r.id == ruleA.id) = []) ∧
    ((execute_exit (fun _ => false) ruleA posA "KEY"
        ExitReason.targetProfitTriggered wA).store = wA.store) :=
  ⟨((C2_deactivation_iff_order_call_returns (fun _ => true) ruleA posA "KEY"
      ExitReason.targetProfitTriggered wA).1 rfl).1,
   ((C2_deactivation_iff_order_call_returns (fun _ => true) ruleA posA "KEY"
      ExitReason.targetProfitTriggered wA).1 rfl).2,
   (C2_deactivation_iff_order_call_returns (fun _ => false) ruleA posA "KEY"
      ExitReason.targetProfitTriggered wA).2 rfl⟩

/-- C7: while the market calendar reports closed, a pending feed message is
drained from the socket (removed from the queue) but not applied: the quote
cache after the iteration equals the cache before it, so any symbol's ltp
reads the prior value or absent. -/
theorem C7_closed_market_drains_without_applying
    (q : List (String × Option FeedData)) (cache : Cache) :
    loop_iteration false q cache = (q.tail, cache) ∧
    ∀ sym, quote_get (loop_iteration false q cache).2 sym "ltp" =
      quote_get cache sym "ltp" := by
  have h : loop_iteration false q cache = (q.tail, cache) := by
    cases q with
    | nil => rfl
    | cons a t => cases a; simp [loop_iteration]
  exact ⟨h, fun sym => by rw [h]⟩

/-- C9: an individual rule whose position-map lookup under
`symbol_product` misses, or whose matched position has zero net quantity,
is skipped for the cycle — it produces no trigger, submits no order and
leaves the store (including `is_active`) unchanged. -/
theorem C9_individual_rule_skipped_when_flat (cache : Cache)
    (gw : OrderPayload → Bool) (api : String) (rule : Rule)
    (pm : List (String × Position)) (w : World)
    (hind : rule.is_group_rule = false)
    (hskip : assocGet pm (posKey rule.symbol rule.product) = none ∨
       ∃ pos, assocGet pm (posKey rule.symbol rule.product) = some pos ∧
         get_net_qty pos = 0) :
    rule_triggers cache rule pm = [] ∧ check_rule cache gw api rule pm w = w := by
  have ht : rule_triggers cache rule pm = [] := by
    rcases hskip with h | ⟨pos, hpos, hq⟩
    · simp [rule_triggers, hind, h]
    · simp [rule_triggers, hind, hpos, hq]
  exact ⟨ht, by simp [check_rule, ht]⟩

/-- C9 witness: with an empty position book, `ruleA` produces no trigger
and the world is unchanged. -/
theorem C9_individual_rule_skipped_witness :
    rule_triggers [] ruleA [] = [] ∧
    check_rule [] (fun _ => true) "KEY" ruleA [] wA = wA :=
  C9_individual_rule_skipped_when_flat [] (fun _ => true) "KEY" ruleA [] wA
    rfl (Or.inl rfl)

/-- C10: `execute_exit` never propagates an exception (its body is wrapped
in a catch-all handler, modelled by totality over every gateway oracle), so
during a group trigger every matched position receives its own
`place_order` call even when calls for earlier positions raise: the placed
list always grows by exactly one payload per computed trigger. -/
theorem C10_all_triggered_exits_attempted (cache : Cache)
    (gw : OrderPayload → Bool) (api : String) (rule : Rule)
    (pm : List (String × Position)) (w : World) :
    (check_rule cache gw api rule pm w).placed =
      w.placed ++ (rule_triggers cache rule pm).map
        (fun pr => build_exit_payload rule pr.1 api) := by
  unfold check_rule
  generalize rule_triggers cache rule pm = l
  induction l generalizing w with
  | nil => simp
  | cons a t ih =>
    rw [List.foldl_cons, ih, execute_exit_placed]
    simp

end ManagementService

namespace ManagementService

/-- C3: within one evaluation of a rule, the target-profit check precedes
the max-loss check.  When `target_profit` is set (a positive magnitude per
the data model) and the computed P&L — the matched position's P&L for an
individual rule, the aggregate P&L for a group rule — reaches it, the rule
fires exactly the target-profit exit (reason string
"Target Profit Triggered" in the individual case) and the max-loss branch
cannot fire in that evaluation, whatever `max_loss` and `exit_type` are. -/
theorem C3_target_profit_precedes_max_loss (cache : Cache) (rule : Rule)
    (pm : List (String × Position)) (tp : ℚ)
    (htp : rule.target_profit = some tp) (h0 : 0 < tp) :
    (rule.is_group_rule = false →
      ∀ pos, assocGet pm (posKey rule.symbol rule.product) = some pos →
        get_net_qty pos ≠ 0 → tp ≤ calculate_pnl cache pos →
        rule_triggers cache rule pm = [(pos, ExitReason.targetProfitTriggered)]) ∧
    (rule.is_group_rule = true →
      (group_matching rule pm).isEmpty = false →
      tp ≤ group_pnl cache rule pm →
      rule_triggers cache rule pm =
        (group_matching rule pm).map
          (fun p => (p, ExitReason.groupTargetProfit (group_pnl cache rule pm)))) ∧
    ExitReason.text ExitReason.targetProfitTriggered = "Target Profit Triggered" := by
  have htpc : ∀ pnl : ℚ, tp ≤ pnl → tpCond rule.target_profit pnl = true := by
    intro pnl hle
    simp [tpCond, htp, ne_of_gt h0, hle]
  refine ⟨?_, ?_, rfl⟩
  · intro hind pos hpos hq hpnl
    simp [rule_triggers, hind, hpos, hq, htpc _ hpnl]
  · intro hg hne hpnl
    simp [rule_triggers, hg, hne, htpc _ hpnl]

/-- C3 witness: the spec example — target 500, max loss 300, P&L 600 —
fires only the target-profit exit on `ruleA`. -/
theorem C3_target_profit_precedence_witness :
    rule_triggers [] ruleA pmA = [(posA, ExitReason.targetProfitTriggered)] :=
  (C3_target_profit_precedes_max_loss [] ruleA pmA 500 rfl (by decide)).1
    rfl posA (by decide) (by decide) (by decide)

/-- C5: `calculate_pnl` returns the broker-reported `pnl` field when no
cached ltp exists for the symbol; with a cached ltp and a numeric average
price it returns `(ltp - avg) * q` for a long and `(avg - ltp) * |q|` for
a short position. -/
theorem C5_calculate_pnl_formula (cache : Cache) (pos : Position) :
    (quote_get cache pos.symbol "ltp" = none →
       ∀ v, pos.pnl = some (some v) → calculate_pnl cache pos = v) ∧
    (∀ ltp avg, quote_get cache pos.symbol "ltp" = some ltp →
       pos.netavgprc = some (some avg) →
       (0 < get_net_qty pos →
          calculate_pnl cache pos = (ltp - avg) * get_net_qty pos) ∧
       (get_net_qty pos < 0 →
          calculate_pnl cache pos = (avg - ltp) * |get_net_qty pos|)) := by
  constructor
  · intro hq v hv
    simp [calculate_pnl, hq, hv]
  · intro ltp avg hq ha
    constructor
    · intro hpos
      simp [calculate_pnl, hq, ha, hpos]
    · intro hneg
      have hnp : ¬ (0 < get_net_qty pos) := not_lt.mpr hneg.le
      simp [calculate_pnl, hq, ha, hnp, hneg]

/-- C5 witness: the spec examples — long 20 shares at average 100 with
cached ltp 95 yields (95-100)*20 = -5*20 = -100; short net quantity -10 at
average 100 with ltp 95 yields (100-95)*10 = 50. -/
theorem C5_calculate_pnl_witness :
    calculate_pnl cacheA posA = ((95 : ℚ) - 100) * 20 ∧
    ((95 : ℚ) - 100) * 20 = -100 ∧
    calculate_pnl cacheA posS = ((100 : ℚ) - 95) * |(-10 : ℚ)| ∧
    ((100 : ℚ) - 95) * |(-10 : ℚ)| = 50 := by
  refine ⟨?_, by norm_num, ?_, by norm_num⟩
  · have h := ((C5_calculate_pnl_formula cacheA posA).2 95 100
      (by decide) rfl).1 (by decide)
    simpa [posA, get_net_qty, net_qty_from, qtyKeys, assocGet] using h
  · have h := ((C5_calculate_pnl_formula cacheA posS).2 95 100
      (by decide) rfl).2 (by decide)
    simpa [posS, get_net_qty, net_qty_from, qtyKeys, assocGet] using h

end ManagementService

namespace ManagementService

/-- C4 counterexample: a group rule with `exit_type = "CANDLE_CLOSE"`
(neither TOTAL_LOSS nor BOTH) and `max_loss = 100` does trigger a max-loss
exit when the aggregate P&L is -200 — the group max-loss branch is not
gated on `exit_type`, refuting the claim for group rules. -/
theorem C4_group_max_loss_ignores_exit_type_counterexample :
    rule4.is_group_rule = true ∧
    rule4.exit_type ≠ "TOTAL_LOSS" ∧ rule4.exit_type ≠ "BOTH" ∧
    rule_triggers [] rule4 pm4 = [(pos4, ExitReason.groupMaxLoss (-200))] := by
  refine ⟨rfl, by decide, by decide, ?_⟩
  norm_num [rule_triggers, rule4, pm4, pos4, build_positions_map, posKey,
    assocInsert, assocGet, group_matching, group_pnl, strStarts, get_net_qty,
    net_qty_from, qtyKeys, calculate_pnl, quote_get, tpCond, mlCondGroup,
    List.isPrefixOf]

/-- C4 amended: for individual (non-group) rules, a max-loss exit fires
only when `exit_type` is TOTAL_LOSS or BOTH — with any other exit type,
every trigger the rule can produce is the target-profit one.  (Group rules
fire max-loss exits regardless of `exit_type`, as the counterexample
shows.) -/
theorem C4_individual_max_loss_requires_exit_type (cache : Cache)
    (rule : Rule) (pm : List (String × Position))
    (hind : rule.is_group_rule = false)
    (h1 : rule.exit_type ≠ "TOTAL_LOSS") (h2 : rule.exit_type ≠ "BOTH") :
    (rule_triggers cache rule pm).all
      (fun pr => decide (pr.2 = ExitReason.targetProfitTriggered)) = true := by
  have hguard : mlGuardInd rule.exit_type rule.max_loss = false := by
    simp [mlGuardInd, h1, h2]
  simp only [rule_triggers, hind, Bool.false_eq_true, if_false]
  cases hpos : assocGet pm (posKey rule.symbol rule.product) with
  | none => simp
  | some pos =>
    by_cases hq : get_net_qty pos = 0
    · simp [hq]
    · by_cases htc : tpCond rule.target_profit (calculate_pnl cache pos) = true
      · simp [hq, htc]
      · simp [hq, htc, hguard]

/-- C4 amended witness: an individual CANDLE_CLOSE rule over a losing
position produces no max-loss trigger. -/
theorem C4_individual_max_loss_gate_witness :
    (rule_triggers [] rule4i pm4).all
      (fun pr => decide (pr.2 = ExitReason.targetProfitTriggered)) = true :=
  C4_individual_max_loss_requires_exit_type [] rule4i pm4 rfl
    (by decide) (by decide)

end ManagementService

namespace ManagementService

/-- C6 counterexample: a message whose `ltp` parses but whose `open` fails
numeric conversion is not applied atomically — the exception aborts the
merge midway, leaving the freshly written `ltp` in the cache, so the cache
neither holds the full merge nor equals its prior (empty) state. -/
theorem C6_partial_merge_counterexample :
    assocGet d6.fields "open" = some none ∧
    quote_get ([] : Cache) "RELIANCE" "ltp" = none ∧
    quote_get (process_market_data "t" (some d6) []) "RELIANCE" "ltp" =
      some 5 := by decide

/-- C6 amended: the field merge is sequential in the fixed order ltp, open,
high, low, close, volume; when a present field fails numeric conversion,
every earlier field that parsed is merged and remains in the cache, while
the failing field and all later fields are left exactly as before the
message. -/
theorem C6_merge_is_sequential_prefix (topic : String) (data : FeedData)
    (cache : Cache) (sym : String) (l1 l2 : List String) (k : String)
    (hres : resolve_symbol data topic = some sym) (hne : sym ≠ "")
    (hsplit : fieldOrder = l1 ++ k :: l2)
    (hbad : assocGet data.fields k = some none)
    (hgood : ∀ k' ∈ l1, assocGet data.fields k' ≠ some none) :
    (∀ k' ∈ l1, ∀ v, assocGet data.fields k' = some (some v) →
       quote_get (process_market_data topic (some data) cache) sym k' = some v) ∧
    (∀ k'' ∈ k :: l2,
       quote_get (process_market_data topic (some data) cache) sym k'' =
         quote_get cache sym k'') := by
  have hproc : process_market_data topic (some data) cache =
      merge_go sym data.fields fieldOrder (cache_init cache sym) := by
    simp [process_market_data, hres, hne]
  have hnd : fieldOrder.Nodup := by decide
  rw [hsplit] at hnd
  have hnd1 : l1.Nodup := hnd.of_append_left
  have hdisj : l1.Disjoint (k :: l2) := List.disjoint_of_nodup_append hnd
  rw [hproc, hsplit,
    merge_go_stop sym data.fields l1 l2 k _ hgood hbad]
  constructor
  · intro k' hk' v hv
    exact merge_go_written sym data.fields l1 _ k' v hnd1 hk' hgood hv
  · intro k'' hk''
    have hkn : k'' ∉ l1 := fun hmem => hdisj hmem hk''
    rw [merge_go_not_written sym data.fields l1 _ k'' hkn, quote_get_cache_init]

/-- C6 amended witness: on `d6` (ltp parses, open fails) the merged prefix
keeps ltp = 5 while the volume field stays absent as before. -/
theorem C6_merge_prefix_witness :
    quote_get (process_market_data "t" (some d6) []) "RELIANCE" "ltp" =
      some 5 ∧
    quote_get (process_market_data "t" (some d6) []) "RELIANCE" "volume" =
      none := by
  have h := C6_merge_is_sequential_prefix "t" d6 [] "RELIANCE" ["ltp"]
    ["high", "low", "close", "volume"] "open" (by decide) (by decide) rfl
    (by decide) (by decide)
  exact ⟨h.1 "ltp" (by decide) 5 (by decide),
    (h.2 "volume" (by decide)).trans rfl⟩

/-- C8 counterexample: with a present-but-empty payload `symbol` and topic
`NSE_INFY_LTP`, the update lands under the topic-derived symbol INFY, not
under the payload's symbol value — Python truthiness makes an empty
payload symbol fall through to the topic, refuting "uses the payload's
explicit symbol field when present". -/
theorem C8_empty_payload_symbol_counterexample :
    d8.symbol = some "" ∧
    quote_get (process_market_data "NSE_INFY_LTP" (some d8) []) "INFY" "ltp" =
      some 7 ∧
    quote_get (process_market_data "NSE_INFY_LTP" (some d8) []) "" "ltp" =
      none := by decide

/-- C8 amended: the payload's `symbol` field wins when present and
non-empty; otherwise (absent or empty) the second-to-last segment of the
underscore-split topic is used when the topic has at least 3 segments; a
message whose resolved symbol is absent or empty is dropped silently with
the cache unchanged. -/
theorem C8_symbol_resolution (data : FeedData) (topic : String)
    (cache : Cache) :
    (∀ s, data.symbol = some s → s ≠ "" →
       resolve_symbol data topic = some s) ∧
    ((data.symbol = none ∨ data.symbol = some "") →
       3 ≤ (pySplit topic).length →
       resolve_symbol data topic =
         (pySplit topic).get? ((pySplit topic).length - 2)) ∧
    ((resolve_symbol data topic = none ∨ resolve_symbol data topic = some "") →
       process_market_data topic (some data) cache = cache) := by
  refine ⟨?_, ?_, ?_⟩
  · intro s hs hne
    simp [resolve_symbol, pyOr, hs, hne]
  · intro hfalsy hlen
    rcases hfalsy with h | h <;>
      simp [resolve_symbol, pyOr, h, topic_symbol, hlen]
  · intro hres
    rcases hres with h | h <;> simp [process_market_data, h]

/-- C8 amended witness: a non-empty payload symbol wins; with no payload
symbol a 3-segment topic supplies the second-to-last segment; a 1-segment
topic with no payload symbol drops the message. -/
theorem C8_symbol_resolution_witness :
    resolve_symbol dTcs "NSE_INFY_LTP" = some "TCS" ∧
    resolve_symbol dNoSym "NSE_INFY_LTP" =
      (pySplit "NSE_INFY_LTP").get? ((pySplit "NSE_INFY_LTP").length - 2) ∧
    process_market_data "AB" (some dNoSym) cacheA = cacheA :=
  ⟨(C8_symbol_resolution dTcs "NSE_INFY_LTP" []).1 "TCS" rfl (by decide),
   (C8_symbol_resolution dNoSym "NSE_INFY_LTP" []).2.1 (Or.inl rfl) (by decide),
   (C8_symbol_resolution dNoSym "AB" cacheA).2.2 (Or.inl (by decide))⟩

end ManagementService

namespace ManagementService

/-- C1: when group rule `ruleG` (prefix NIFTY, target 500) triggers over
two matched positions NIFTY24JANFUT (qty 50) and NIFTYFEBFUT (qty 30) with
aggregate P&L 700, exactly one market order is submitted per matched
position with that position's quantity and SELL side — but both orders
carry the rule's prefix symbol NIFTY, not the matched positions' own
symbols: `execute_exit` builds the payload from `rule.symbol`, so the
orders cannot close the positions they were matched for. -/
theorem C1_group_exit_orders_carry_rule_symbol :
    (check_rule [] (fun _ => true) "KEY" ruleG pmG w0).placed.map
        (fun p => p.symbol) = ["NIFTY", "NIFTY"] ∧
    (check_rule [] (fun _ => true) "KEY" ruleG pmG w0).placed.map
        (fun p => p.quantity) = [50, 30] ∧
    (check_rule [] (fun _ => true) "KEY" ruleG pmG w0).placed.map
        (fun p => p.action) = ["SELL", "SELL"] ∧
    (check_rule [] (fun _ => true) "KEY" ruleG pmG w0).placed.map
        (fun p => p.pricetype) = ["MARKET", "MARKET"] ∧
    posN1.symbol = "NIFTY24JANFUT" ∧ posN2.symbol = "NIFTYFEBFUT" ∧
    posN1.symbol ≠ ruleG.symbol ∧ posN2.symbol ≠ ruleG.symbol := by
  refine ⟨?_, ?_, ?_, ?_, rfl, rfl, by decide, by decide⟩ <;>
  · norm_num [check_rule, rule_triggers, ruleG, pmG, build_positions_map,
      posKey, assocInsert, assocGet, group_matching, group_pnl, strStarts,
      posN1, posN2, get_net_qty, net_qty_from, qtyKeys, calculate_pnl,
      quote_get, tpCond, execute_exit, build_exit_payload, w0,
      List.isPrefixOf, List.filter, pyInt]

end ManagementService
